import Mathlib

/-!
Verification of the UTF-8 codec (utf8.cpp) of the neacsum/utf8 library.

The C++ code is shallowly embedded as follows.

* A byte string is a `List Nat` of byte values; a cursor is a `Nat` index.
  For the pointer-based (null-terminated) functions, reading at or past the
  end of the list yields the byte 0, modelling the NUL terminator placed by
  `c_str()` right after the string contents (`byteAt`).
* The per-thread error mode `action::replace` / `action::except` is consulted
  only inside `throw_or_replace`.  The decoders (`next`, `prev`) move the
  cursor identically in both modes (under `except` the C++ exception
  propagates through the reference parameter, which keeps the value it had at
  the throw point), so they are embedded once, returning `Rune.err cause`
  where the C++ code calls `throw_or_replace (cause)`: under `replace` the
  returned code point is `0xFFFD` (`replaceVal`), under `except` the
  exception cause is `cause`.  The encoder-side functions (`encode`,
  `narrow`) produce different output bytes in the two modes, so they take the
  mode as an explicit parameter.
* C++ `char` values are always masked (`& 0x80` etc.) or guarded before use,
  and every mask is below 0x100, so sign extension is irrelevant and bytes
  are modelled as plain naturals.
-/

namespace Utf8

/-- Exception causes of `utf8::exception` (utf8.h). -/
inductive Cause where
  | invalid_utf8
  | invalid_wchar
  | invalid_char32
deriving DecidableEq

/-- Error handling modes (`utf8::action`). -/
inductive Action where
  | replace
  | except
deriving DecidableEq

/-- `utf8::REPLACEMENT_CHARACTER` (0xFFFD). -/
def REPLACEMENT_CHARACTER : Nat := 0xFFFD

/-- Result of decoding one code point.  `err c` stands for the C++ call
`throw_or_replace (c)`: code point 0xFFFD under `replace`, a thrown
exception with cause `c` under `except`. -/
inductive Rune where
  | ok (v : Nat)
  | err (e : Cause)
deriving DecidableEq

/-- The code point a `Rune` denotes under the `replace` error mode. -/
def replaceVal : Rune → Nat
  | .ok v => v
  | .err _ => REPLACEMENT_CHARACTER

/-- Result of a byte-producing conversion.  `err c` stands for a thrown
exception with cause `c` under the `except` mode (no bytes are produced). -/
inductive Res where
  | ok (s : List Nat)
  | err (e : Cause)
deriving DecidableEq

/-- `throw_or_replace` (utf8.cpp line 32): under `except` throw `e`, under
`replace` substitute `REPLACEMENT_CHARACTER`. -/
def throw_or_replace (mode : Action) (e : Cause) : Rune :=
  match mode with
  | .except => .err e
  | .replace => .ok REPLACEMENT_CHARACTER

/-- Byte read through a pointer at index `p`: past the end of the stored
bytes the NUL terminator (0) is read. -/
def byteAt (s : List Nat) (p : Nat) : Nat :=
  s.getD p 0

theorem byteAt_eq_zero (s : List Nat) (p : Nat) (h : s.length ≤ p) :
    byteAt s p = 0 := by
  simp [byteAt, List.getD, List.getElem?_eq_none h]

theorem byteAt_ne_zero_lt (s : List Nat) (p : Nat) (h : byteAt s p ≠ 0) :
    p < s.length := by
  by_contra hge
  exact h (byteAt_eq_zero s p (Nat.le_of_not_lt hge))

/-- Resynchronisation loop of `next` on an unexpected continuation byte
(utf8.cpp lines 451-453 and 369-371):
`do ++ptr; while (*ptr && (*ptr & 0x80) == 0x80)` — the `do` step is the
`p+1` at the call site; this function is the `while` part.  The iterator
overload's condition `ptr != last && (*ptr & 0x80) == 0x80` coincides with
this one on `byteAt` (at `p = last` the default byte 0 fails the mask). -/
def skipHigh (s : List Nat) (p : Nat) : Nat :=
  if h : byteAt s p ≠ 0 ∧ byteAt s p &&& 0x80 = 0x80 then skipHigh s (p + 1)
  else p
termination_by s.length - p
decreasing_by
  have := byteAt_ne_zero_lt s p h.1
  omega

/-- Skip loop of `next` on an invalid lead byte `11111xxx`
(utf8.cpp lines 476-478 and 395-397):
`do ++ptr; while (*ptr && (*ptr & 0xC0) == 0x80)`; same remark as for
`skipHigh` concerning the iterator overload. -/
def skipCont (s : List Nat) (p : Nat) : Nat :=
  if h : byteAt s p ≠ 0 ∧ byteAt s p &&& 0xC0 = 0x80 then skipCont s (p + 1)
  else p
termination_by s.length - p
decreasing_by
  have := byteAt_ne_zero_lt s p h.1
  omega

/-- Continuation-byte accumulation loop of `next` (utf8.cpp lines 483-487 and
400-405): `for (i = 0; i < cont && (*ptr & 0xC0) == 0x80; i++) { rune <<= 6;
rune += *ptr++ & 0x3f; }`.  Returns the final `(rune, ptr, i)`.  The last
argument counts down the remaining promised bytes from `cont`; the returned
`i` counts the bytes actually consumed.  The iterator overload's extra bound
`ptr != last` coincides with this condition on `byteAt`, the default byte 0
failing the mask. -/
def accCont (s : List Nat) (p rune : Nat) : Nat → Nat × Nat × Nat
  | 0 => (rune, p, 0)
  | n + 1 =>
    if byteAt s p &&& 0xC0 = 0x80 then
      match accCont s (p + 1) ((rune <<< 6) + (byteAt s p &&& 0x3f)) n with
      | (r, q, i) => (r, q, i + 1)
    else (rune, p, 0)

/-- Post-accumulation part of `next`, shared verbatim by the two overloads
(utf8.cpp lines 482-506 and 400-427): run the accumulation loop for `cont`
promised continuation bytes starting at `p`, then apply the sanity checks
(short encoding, surrogate, overlong). -/
def decodeTail (s : List Nat) (p cont rune : Nat) : Rune × Nat :=
  match accCont s p rune cont with
  | (rune, q, i) =>
    if i ≠ cont then (.err .invalid_utf8, q)
    else if 0xD800 ≤ rune ∧ rune ≤ 0xDFFF then (.err .invalid_utf8, q)
    else if rune < 0x80 ∨ (cont > 1 ∧ rune < 0x800) ∨ (cont > 2 ∧ rune < 0x10000) then
      (.err .invalid_utf8, q)
    else (.ok rune, q)

/-- `next (const char*&)` (utf8.cpp lines 441-507), the pointer-based,
null-terminated forward decoder.  Returns the decoded `Rune` and the new
cursor position. -/
def next_ptr (s : List Nat) (pos : Nat) : Rune × Nat :=
  let b := byteAt s pos
  if b &&& 0x80 = 0 then
    if b ≠ 0 then (.ok b, pos + 1) else (.ok b, pos)
  else if b &&& 0xC0 = 0x80 then
    (.err .invalid_utf8, skipHigh s (pos + 1))
  else if b &&& 0xE0 = 0xC0 then decodeTail s (pos + 1) 1 (b &&& 0x1f)
  else if b &&& 0xF0 = 0xE0 then decodeTail s (pos + 1) 2 (b &&& 0x0f)
  else if b &&& 0xF8 = 0xF0 then decodeTail s (pos + 1) 3 (b &&& 0x07)
  else (.err .invalid_utf8, skipCont s (pos + 1))

/-- `next (std::string::const_iterator&, const std::string::const_iterator)`
(utf8.cpp lines 359-428), the iterator-based forward decoder over the range
`[0, s.length)`. -/
def next_iter (s : List Nat) (pos : Nat) : Rune × Nat :=
  if pos < s.length then
    let b := byteAt s pos
    if b &&& 0x80 = 0 then (.ok b, pos + 1)
    else if b &&& 0xC0 = 0x80 then
      (.err .invalid_utf8, skipHigh s (pos + 1))
    else if b &&& 0xE0 = 0xC0 then decodeTail s (pos + 1) 1 (b &&& 0x1f)
    else if b &&& 0xF0 = 0xE0 then decodeTail s (pos + 1) 2 (b &&& 0x0f)
    else if b &&& 0xF8 = 0xF0 then decodeTail s (pos + 1) 3 (b &&& 0x07)
    else (.err .invalid_utf8, skipCont s (pos + 1))
  else (.err .invalid_utf8, pos)

/-- Backward-scan loop of `prev (const char*&)` (utf8.cpp line 525):
`while (((ch = *--ptr) & 0xc0) == 0x80 && cont < 3) rune += (ch & 0x3f) <<
cont++ * 6;`.  Every test of the condition first decrements the cursor and
reads; `none` is returned when that read would fall before index 0 of the
byte sequence (out-of-bounds in C).  On exit, returns the last byte read
`ch`, the cursor (pointing at `ch`), `cont` and the accumulated `rune`. -/
def prevLoop (s : List Nat) : Nat → Nat → Nat → Option (Nat × Nat × Nat × Nat)
  | 0, _, _ => none
  | p + 1, cont, rune =>
    let ch := byteAt s p
    if ch &&& 0xC0 = 0x80 ∧ cont < 3 then
      prevLoop s p (cont + 1) (rune + ((ch &&& 0x3f) <<< (cont * 6)))
    else some (ch, p, cont, rune)

/-- Backward-scan loop of the iterator overload `prev (iterator, first)`
(utf8.cpp line 571): same as `prevLoop` with the extra conjunct
`ptr > first` (checked after the decrement and read), `first` being index 0
here. -/
def prevLoopI (s : List Nat) : Nat → Nat → Nat → Option (Nat × Nat × Nat × Nat)
  | 0, _, _ => none
  | p + 1, cont, rune =>
    let ch := byteAt s p
    if ch &&& 0xC0 = 0x80 ∧ cont < 3 ∧ 0 < p then
      prevLoopI s p (cont + 1) (rune + ((ch &&& 0x3f) <<< (cont * 6)))
    else some (ch, p, cont, rune)

/-- The post-combination sanity checks of `prev` (utf8.cpp lines 543-550 and
589-596): surrogate and overlong rejection; `pos` is the original cursor
(restored on failure), `p` the cursor at the decoded character's first
byte. -/
def prevChecks (pos p cont rune : Nat) : Rune × Nat :=
  if (0xD800 ≤ rune ∧ rune ≤ 0xDFFF) ∨ (cont > 0 ∧ rune < 0x80) ∨
      (cont > 1 ∧ rune < 0x800) ∨ (cont > 2 ∧ rune < 0x10000) then
    (.err .invalid_utf8, pos)
  else (.ok rune, p)

/-- Lead-byte combination and sanity checks shared by both `prev` overloads
(utf8.cpp lines 529-552 and 575-598), applied to the state left by the
backward-scan loop; `pos` is the original cursor, restored on failure. -/
def prevTail (pos ch p cont rune : Nat) : Rune × Nat :=
  if cont = 3 ∧ ch &&& 0xF8 = 0xF0 then
    prevChecks pos p cont (rune + ((ch &&& 0x0f) <<< 18))
  else if cont = 2 ∧ ch &&& 0xF0 = 0xE0 then
    prevChecks pos p cont (rune + ((ch &&& 0x1f) <<< 12))
  else if cont = 1 ∧ ch &&& 0xE0 = 0xC0 then
    prevChecks pos p cont (rune + ((ch &&& 0x3f) <<< 6))
  else if cont = 0 ∧ ch < 0x7f then
    prevChecks pos p cont (rune + ch)
  else (.err .invalid_utf8, pos)

/-- `prev (const char*&)` (utf8.cpp lines 519-553), the pointer-based reverse
decoder.  `none` models a backward read before index 0 (out-of-bounds in C,
as the pointer overload has no lower bound). -/
def prev_ptr (s : List Nat) (pos : Nat) : Option (Rune × Nat) :=
  match prevLoop s pos 0 0 with
  | none => none
  | some (ch, p, cont, rune) => some (prevTail pos ch p cont rune)

/-- `prev (std::string::const_iterator&, const std::string::const_iterator)`
(utf8.cpp lines 565-599), the iterator-based reverse decoder with lower
bound `first` = index 0.  `none` can only arise when called with the cursor
already at `first` (the C++ code still reads `*--ptr` once before checking
the bound). -/
def prev_iter (s : List Nat) (pos : Nat) : Option (Rune × Nat) :=
  match prevLoopI s pos 0 0 with
  | none => none
  | some (ch, p, cont, rune) => some (prevTail pos ch p cont rune)

/-- `encode (char32_t, std::string&)` (utf8.cpp lines 702-731): append the
UTF-8 encoding of `c` to `s`.  `Res.err` models the `except`-mode throw with
`s` unchanged (the throw happens before any `push_back`). -/
def encode (mode : Action) (c : Nat) (s : List Nat) : Res :=
  if c ≤ 0x7f then .ok (s ++ [c])
  else if c ≤ 0x7ff then
    .ok (s ++ [0xC0 ||| (c >>> 6), 0x80 ||| (c &&& 0x3f)])
  else if c ≤ 0xFFFF then
    match (if 0xD800 ≤ c ∧ c ≤ 0xDFFF then throw_or_replace mode .invalid_char32
           else .ok c) with
    | .err e => .err e
    | .ok c =>
      .ok (s ++ [0xE0 ||| (c >>> 12), 0x80 ||| (c >>> 6 &&& 0x3f),
                 0x80 ||| (c &&& 0x3f)])
  else if c ≤ 0x10ffff then
    .ok (s ++ [0xF0 ||| (c >>> 18), 0x80 ||| (c >>> 12 &&& 0x3f),
               0x80 ||| (c >>> 6 &&& 0x3f), 0x80 ||| (c &&& 0x3f)])
  else
    match mode with
    | .except => .err .invalid_char32
    | .replace => .ok (s ++ [0xEF, 0xBF, 0xBD])

/-- The byte sequence `encode` produces for `c` on an empty buffer under the
`replace` mode; for `c` in the valid code-point domain this is the UTF-8
encoding of `c` (the `replace` mode never fails). -/
def encBytes (c : Nat) : List Nat :=
  match encode .replace c [] with
  | .ok bs => bs
  | .err _ => []

/-- `narrow (const std::wstring&)` (utf8.cpp lines 102-138, portable branch):
convert a sequence of 16-bit units, combining surrogate pairs, appending the
UTF-8 bytes to `out`.  An `err` from `encode` (only possible under `except`)
propagates as the thrown exception.  In the missing-low-surrogate branch the
unit list is empty, so the loop's next `in != ws.end()` test fails and the
final `out` is returned directly. -/
def narrow (mode : Action) : List Nat → List Nat → Res
  | [], out => .ok out
  | u :: rest, out =>
    if 0xDBFF < u ∧ u < 0xDFFF then
      match throw_or_replace mode .invalid_wchar with
      | .err e => .err e
      | .ok c =>
        match encode mode c out with
        | .err e => .err e
        | .ok out => narrow mode rest out
    else if 0xD7FF < u ∧ u < 0xDC00 then
      match rest with
      | [] =>
        match throw_or_replace mode .invalid_wchar with
        | .err e => .err e
        | .ok c =>
          match encode mode c out with
          | .err e => .err e
          | .ok out => .ok out
      | cl :: rest2 =>
        if cl < 0xDC00 ∨ 0xDFFF < cl then
          match throw_or_replace mode .invalid_wchar with
          | .err e => .err e
          | .ok c =>
            match encode mode c out with
            | .err e => .err e
            | .ok out => narrow mode rest2 out
        else
          match encode mode ((((u - 0xD800) <<< 10) ||| (cl - 0xDC00)) + 0x10000) out with
          | .err e => .err e
          | .ok out => narrow mode rest2 out
    else
      match encode mode u out with
      | .err e => .err e
      | .ok out => narrow mode rest out

/-- The scan loop of `valid_str (const char*, size_t)` (utf8.cpp line 341):
`while (s < last && valid) valid = (next (s) != REPLACEMENT_CHARACTER);`,
run under the forced `replace` mode, returning the final cursor.  The C loop
does not terminate for every input (see `next_ptr` at a NUL byte), so the
loop is embedded with explicit fuel: `none` means the fuel was exhausted
without the loop exiting. -/
def validLoop (s : List Nat) (last : Nat) : Nat → Nat → Option Nat
  | 0, _ => none
  | fuel + 1, pos =>
    if pos < last then
      match next_ptr s pos with
      | (r, pos') =>
        if replaceVal r ≠ REPLACEMENT_CHARACTER then validLoop s last fuel pos'
        else some pos'
    else some pos

/-- `valid_str (const char*, size_t)` (utf8.cpp lines 333-345) with an
explicit character count `nch` (the list `s` holds the first `nch` bytes;
`byteAt` supplies the NUL terminator beyond them): forces the `replace`
mode, runs the scan loop and returns `s == last`.  The fuel `nch + 1`
suffices whenever the loop terminates at all, since each iteration that
continues advances the cursor (`none` therefore means the C loop runs
forever). -/
def valid_str (s : List Nat) (nch : Nat) : Option Bool :=
  (validLoop s nch (nch + 1) 0).map (fun p => p == nch)

/-!  Bit-arithmetic bridge lemmas: the C code builds and tests bytes with
`&`, `|`, `<<`, `>>`; over the bounded ranges involved these reduce to plain
addition, division and remainder. -/

theorem shl6 (c : Nat) : c <<< 6 = c * 64 := by
  rw [Nat.shiftLeft_eq]

theorem shr6 (c : Nat) : c >>> 6 = c / 64 := by
  rw [Nat.shiftRight_eq_div_pow]

theorem shr12 (c : Nat) : c >>> 12 = c / 4096 := by
  rw [Nat.shiftRight_eq_div_pow]

theorem shr18 (c : Nat) : c >>> 18 = c / 262144 := by
  rw [Nat.shiftRight_eq_div_pow]

theorem and63 (c : Nat) : c &&& 63 = c % 64 := by
  have h := Nat.and_pow_two_sub_one_eq_mod c 6
  norm_num at h
  exact h

theorem lor128 : ∀ x, x < 64 → 128 ||| x = 128 + x := by decide
theorem lor192 : ∀ y, y < 32 → 192 ||| y = 192 + y := by decide
theorem lor224 : ∀ z, z < 16 → 224 ||| z = 224 + z := by decide
theorem lor240 : ∀ w, w < 8 → 240 ||| w = 240 + w := by decide

theorem contMask80 : ∀ x, x < 64 → (128 + x) &&& 128 = 128 := by decide
theorem contMaskC0 : ∀ x, x < 64 → (128 + x) &&& 192 = 128 := by decide
theorem contMask3F : ∀ x, x < 64 → (128 + x) &&& 63 = x := by decide

theorem lead2Mask80 : ∀ y, y < 32 → (192 + y) &&& 128 = 128 := by decide
theorem lead2MaskC0 : ∀ y, y < 32 → (192 + y) &&& 192 = 192 := by decide
theorem lead2MaskE0 : ∀ y, y < 32 → (192 + y) &&& 224 = 192 := by decide
theorem lead2Mask1F : ∀ y, y < 32 → (192 + y) &&& 31 = y := by decide

theorem lead3Mask80 : ∀ z, z < 16 → (224 + z) &&& 128 = 128 := by decide
theorem lead3MaskC0 : ∀ z, z < 16 → (224 + z) &&& 192 = 192 := by decide
theorem lead3MaskE0 : ∀ z, z < 16 → (224 + z) &&& 224 = 224 := by decide
theorem lead3MaskF0 : ∀ z, z < 16 → (224 + z) &&& 240 = 224 := by decide
theorem lead3Mask0F : ∀ z, z < 16 → (224 + z) &&& 15 = z := by decide

theorem lead4Mask80 : ∀ w, w < 8 → (240 + w) &&& 128 = 128 := by decide
theorem lead4MaskC0 : ∀ w, w < 8 → (240 + w) &&& 192 = 192 := by decide
theorem lead4MaskE0 : ∀ w, w < 8 → (240 + w) &&& 224 = 224 := by decide
theorem lead4MaskF0 : ∀ w, w < 8 → (240 + w) &&& 240 = 240 := by decide
theorem lead4MaskF8 : ∀ w, w < 8 → (240 + w) &&& 248 = 240 := by decide
theorem lead4Mask07 : ∀ w, w < 8 → (240 + w) &&& 7 = w := by decide

theorem asciiMask80 : ∀ b, b < 128 → b &&& 128 = 0 := by decide

theorem byteAt_cons_zero (a : Nat) (l : List Nat) : byteAt (a :: l) 0 = a := rfl

theorem byteAt_cons_succ (a : Nat) (l : List Nat) (n : Nat) :
    byteAt (a :: l) (n + 1) = byteAt l n := rfl

theorem byteAt_nil (n : Nat) : byteAt [] n = 0 := by
  cases n <;> rfl

/-!  Shape of `encode` on each length class of the valid domain. -/

theorem encBytes_one (c : Nat) (h : c ≤ 0x7f) : encBytes c = [c] := by
  simp [encBytes, encode, h]

theorem encBytes_two (c : Nat) (h1 : 0x80 ≤ c) (h2 : c ≤ 0x7ff) :
    encBytes c = [192 + c / 64, 128 + c % 64] := by
  have hn : ¬ c ≤ 0x7f := by omega
  simp only [encBytes, encode, if_neg hn, if_pos h2, List.nil_append]
  rw [shr6, and63, lor192 _ (by omega), lor128 _ (by omega)]

theorem encBytes_three (c : Nat) (h1 : 0x800 ≤ c) (h2 : c ≤ 0xffff)
    (h3 : ¬ (0xD800 ≤ c ∧ c ≤ 0xDFFF)) :
    encBytes c = [224 + c / 4096, 128 + c / 64 % 64, 128 + c % 64] := by
  have hn1 : ¬ c ≤ 0x7f := by omega
  have hn2 : ¬ c ≤ 0x7ff := by omega
  simp only [encBytes, encode, if_neg hn1, if_neg hn2, if_pos h2, if_neg h3,
    List.nil_append]
  rw [shr12, shr6, and63, and63, lor224 _ (by omega), lor128 _ (by omega),
    lor128 _ (by omega)]

theorem encBytes_four (c : Nat) (h1 : 0x10000 ≤ c) (h2 : c ≤ 0x10ffff) :
    encBytes c = [240 + c / 262144, 128 + c / 4096 % 64, 128 + c / 64 % 64,
      128 + c % 64] := by
  have hn1 : ¬ c ≤ 0x7f := by omega
  have hn2 : ¬ c ≤ 0x7ff := by omega
  have hn3 : ¬ c ≤ 0xffff := by omega
  simp only [encBytes, encode, if_neg hn1, if_neg hn2, if_neg hn3, if_pos h2,
    List.nil_append]
  rw [shr18, shr12, shr6, and63, and63, and63, lor240 _ (by omega),
    lor128 _ (by omega), lor128 _ (by omega), lor128 _ (by omega)]

/-!  Behaviour of the forward decoders on each encoding shape. -/

theorem next_iter_ascii (c : Nat) (h : c ≤ 0x7f) : next_iter [c] 0 = (.ok c, 1) := by
  simp [next_iter, byteAt_cons_zero, asciiMask80 c (by omega)]

theorem next_ptr_ascii (c : Nat) (h : c ≤ 0x7f) (h0 : c ≠ 0) :
    next_ptr [c] 0 = (.ok c, 1) := by
  simp [next_ptr, byteAt_cons_zero, asciiMask80 c (by omega), h0]

theorem decodeTail_two (s : List Nat) (c : Nat) (h1 : 0x80 ≤ c) (h2 : c ≤ 0x7ff)
    (hb : byteAt s 1 = 128 + c % 64) :
    decodeTail s 1 1 (c / 64) = (.ok c, 2) := by
  have hm : c % 64 < 64 := by omega
  have hc : (c / 64) <<< 6 + c % 64 = c := by rw [shl6]; omega
  have hns : ¬ (0xD800 ≤ c ∧ c ≤ 0xDFFF) := by omega
  have hge : ¬ c < 128 := by omega
  simp [decodeTail, accCont, hb, contMaskC0 _ hm, contMask3F _ hm, hc, hns, hge]

theorem decodeTail_three (s : List Nat) (c : Nat) (h1 : 0x800 ≤ c) (h2 : c ≤ 0xffff)
    (h3 : ¬ (0xD800 ≤ c ∧ c ≤ 0xDFFF))
    (hb1 : byteAt s 1 = 128 + c / 64 % 64) (hb2 : byteAt s 2 = 128 + c % 64) :
    decodeTail s 1 2 (c / 4096) = (.ok c, 3) := by
  have hm1 : c / 64 % 64 < 64 := by omega
  have hm2 : c % 64 < 64 := by omega
  have hc1 : (c / 4096) <<< 6 + c / 64 % 64 = c / 64 := by rw [shl6]; omega
  have hc2 : (c / 64) <<< 6 + c % 64 = c := by rw [shl6]; omega
  have hge : ¬ c < 128 := by omega
  have hov : ¬ c < 2048 := by omega
  simp [decodeTail, accCont, hb1, hb2, contMaskC0 _ hm1, contMask3F _ hm1,
    contMaskC0 _ hm2, contMask3F _ hm2, hc1, hc2, h3, hge, hov]

theorem decodeTail_four (s : List Nat) (c : Nat) (h1 : 0x10000 ≤ c) (h2 : c ≤ 0x10ffff)
    (hb1 : byteAt s 1 = 128 + c / 4096 % 64) (hb2 : byteAt s 2 = 128 + c / 64 % 64)
    (hb3 : byteAt s 3 = 128 + c % 64) :
    decodeTail s 1 3 (c / 262144) = (.ok c, 4) := by
  have hm1 : c / 4096 % 64 < 64 := by omega
  have hm2 : c / 64 % 64 < 64 := by omega
  have hm3 : c % 64 < 64 := by omega
  have hc1 : (c / 262144) <<< 6 + c / 4096 % 64 = c / 4096 := by rw [shl6]; omega
  have hc2 : (c / 4096) <<< 6 + c / 64 % 64 = c / 64 := by rw [shl6]; omega
  have hc3 : (c / 64) <<< 6 + c % 64 = c := by rw [shl6]; omega
  have hns : ¬ (0xD800 ≤ c ∧ c ≤ 0xDFFF) := by omega
  have hge : ¬ c < 128 := by omega
  have hov1 : ¬ c < 2048 := by omega
  have hov2 : ¬ c < 65536 := by omega
  simp [decodeTail, accCont, hb1, hb2, hb3, contMaskC0 _ hm1, contMask3F _ hm1,
    contMaskC0 _ hm2, contMask3F _ hm2, contMaskC0 _ hm3, contMask3F _ hm3,
    hc1, hc2, hc3, hns, hge, hov1, hov2]

theorem next_iter_two (c : Nat) (h1 : 0x80 ≤ c) (h2 : c ≤ 0x7ff) :
    next_iter [192 + c / 64, 128 + c % 64] 0 = (.ok c, 2) := by
  have h64 : c / 64 < 32 := by omega
  have hdt := decodeTail_two [192 + c / 64, 128 + c % 64] c h1 h2 (by rfl)
  simp [next_iter, byteAt_cons_zero, lead2Mask80 _ h64, lead2MaskC0 _ h64,
    lead2MaskE0 _ h64, lead2Mask1F _ h64, hdt]

theorem next_ptr_two (c : Nat) (h1 : 0x80 ≤ c) (h2 : c ≤ 0x7ff) :
    next_ptr [192 + c / 64, 128 + c % 64] 0 = (.ok c, 2) := by
  have h64 : c / 64 < 32 := by omega
  have hdt := decodeTail_two [192 + c / 64, 128 + c % 64] c h1 h2 (by rfl)
  simp [next_ptr, byteAt_cons_zero, lead2Mask80 _ h64, lead2MaskC0 _ h64,
    lead2MaskE0 _ h64, lead2Mask1F _ h64, hdt]

theorem next_iter_three (c : Nat) (h1 : 0x800 ≤ c) (h2 : c ≤ 0xffff)
    (h3 : ¬ (0xD800 ≤ c ∧ c ≤ 0xDFFF)) :
    next_iter [224 + c / 4096, 128 + c / 64 % 64, 128 + c % 64] 0 = (.ok c, 3) := by
  have h16 : c / 4096 < 16 := by omega
  have hdt := decodeTail_three [224 + c / 4096, 128 + c / 64 % 64, 128 + c % 64] c
    h1 h2 h3 (by rfl) (by rfl)
  simp [next_iter, byteAt_cons_zero, lead3Mask80 _ h16, lead3MaskC0 _ h16,
    lead3MaskE0 _ h16, lead3MaskF0 _ h16, lead3Mask0F _ h16, hdt]

theorem next_ptr_three (c : Nat) (h1 : 0x800 ≤ c) (h2 : c ≤ 0xffff)
    (h3 : ¬ (0xD800 ≤ c ∧ c ≤ 0xDFFF)) :
    next_ptr [224 + c / 4096, 128 + c / 64 % 64, 128 + c % 64] 0 = (.ok c, 3) := by
  have h16 : c / 4096 < 16 := by omega
  have hdt := decodeTail_three [224 + c / 4096, 128 + c / 64 % 64, 128 + c % 64] c
    h1 h2 h3 (by rfl) (by rfl)
  simp [next_ptr, byteAt_cons_zero, lead3Mask80 _ h16, lead3MaskC0 _ h16,
    lead3MaskE0 _ h16, lead3MaskF0 _ h16, lead3Mask0F _ h16, hdt]

theorem next_iter_four (c : Nat) (h1 : 0x10000 ≤ c) (h2 : c ≤ 0x10ffff) :
    next_iter [240 + c / 262144, 128 + c / 4096 % 64, 128 + c / 64 % 64, 128 + c % 64] 0 =
      (.ok c, 4) := by
  have h8 : c / 262144 < 8 := by omega
  have hdt := decodeTail_four
    [240 + c / 262144, 128 + c / 4096 % 64, 128 + c / 64 % 64, 128 + c % 64] c
    h1 h2 (by rfl) (by rfl) (by rfl)
  simp [next_iter, byteAt_cons_zero, lead4Mask80 _ h8, lead4MaskC0 _ h8,
    lead4MaskE0 _ h8, lead4MaskF0 _ h8, lead4MaskF8 _ h8, lead4Mask07 _ h8, hdt]

theorem next_ptr_four (c : Nat) (h1 : 0x10000 ≤ c) (h2 : c ≤ 0x10ffff) :
    next_ptr [240 + c / 262144, 128 + c / 4096 % 64, 128 + c / 64 % 64, 128 + c % 64] 0 =
      (.ok c, 4) := by
  have h8 : c / 262144 < 8 := by omega
  have hdt := decodeTail_four
    [240 + c / 262144, 128 + c / 4096 % 64, 128 + c / 64 % 64, 128 + c % 64] c
    h1 h2 (by rfl) (by rfl) (by rfl)
  simp [next_ptr, byteAt_cons_zero, lead4Mask80 _ h8, lead4MaskC0 _ h8,
    lead4MaskE0 _ h8, lead4MaskF0 _ h8, lead4MaskF8 _ h8, lead4Mask07 _ h8, hdt]

/-!  Claim theorems. -/

/-- C1: the claimed rejection of accumulated values above 0x10FFFF does not
exist in the code.  On F4 90 80 80 (accumulated value 0x110000) both forward
decoder overloads and both reverse decoder overloads return the out-of-range
value 0x110000 as a successfully decoded code point, with no error-policy
action: the sanity checks of `next` and `prev` test only for short
encodings, surrogates and overlong forms, never against 0x10FFFF. -/
theorem c1_decoders_accept_over_10ffff :
    next_ptr [0xF4, 0x90, 0x80, 0x80] 0 = (.ok 0x110000, 4) ∧
    next_iter [0xF4, 0x90, 0x80, 0x80] 0 = (.ok 0x110000, 4) ∧
    prev_ptr [0xF4, 0x90, 0x80, 0x80] 4 = some (.ok 0x110000, 0) ∧
    prev_iter [0xF4, 0x90, 0x80, 0x80] 4 = some (.ok 0x110000, 0) := by
  decide

/-- C3: `valid_str` does not report exactly "no replacement was needed": it
returns `s == last` after a scan that stops at the first code point decoding
to 0xFFFD.  Hence the truncated sequence C2 (not valid UTF-8) is reported
valid, because the failed decode consumes up to the NUL terminator, landing
exactly on `last`; and the well-formed sequence EF BF BD 41 (a literally
encoded U+FFFD followed by A) is reported invalid, because the scan stops
after the genuine U+FFFD with the cursor at 3 ≠ 4.  A trailing literal
U+FFFD (EF BF BD alone) is still reported valid. -/
theorem c3_valid_str_eval :
    valid_str [0xC2] 1 = some true ∧
    valid_str [0xEF, 0xBF, 0xBD, 0x41] 4 = some false ∧
    valid_str [0xEF, 0xBF, 0xBD] 3 = some true := by
  decide

/-- C4: `prev` rejects the valid one-byte code point U+007F.  The lead-byte
test for a plain byte is `cont == 0 && ch < 0x7f` (strict), so with the
cursor at the end of the encoding [7F] of U+007F — produced by `encode` and
accepted by `next` — both `prev` overloads fail per the error policy and
leave the cursor unmoved, instead of returning 0x7F and moving to the
encoding's first byte. -/
theorem c4_prev_rejects_7f :
    encBytes 0x7F = [0x7F] ∧
    next_ptr [0x7F] 0 = (.ok 0x7F, 1) ∧
    prev_ptr [0x7F] 1 = some (.err .invalid_utf8, 1) ∧
    prev_iter [0x7F] 1 = some (.err .invalid_utf8, 1) := by
  decide

/-- C8: the lone-low-surrogate test of `narrow` is `0xDBFF < c && c < 0xDFFF`
(exclusive), so the lone low surrogate 0xDFFF is not caught there: it falls
through to `encode`, which reports `invalid_char32` (InvalidCodePoint)
instead of the claimed `invalid_wchar` (InvalidWideChar) under the Throw
mode.  For every other lone low surrogate (0xDC00 here) and for a lone
trailing high surrogate (0xD800 here) the failure is `invalid_wchar` as
claimed; under Replace, 0xDFFF still yields the 3-byte encoding of
U+FFFD. -/
theorem c8_narrow_lone_low_boundary :
    narrow .except [0xDFFF] [] = .err .invalid_char32 ∧
    narrow .except [0xDC00] [] = .err .invalid_wchar ∧
    narrow .except [0xDFFE] [] = .err .invalid_wchar ∧
    narrow .except [0xD800] [] = .err .invalid_wchar ∧
    narrow .except [0xD800, 0x0041] [] = .err .invalid_wchar ∧
    narrow .replace [0xDFFF] [] = .ok [0xEF, 0xBF, 0xBD] := by
  decide

/-- C9: `valid_str` does not terminate on a NUL byte among the first `nch`
bytes at a decode position: `next (const char*&)` at a NUL returns code
point 0 without advancing, 0 differs from the replacement character, so the
scan loop `while (s < last && valid)` re-runs forever at the same cursor.
The fuelled embedding of the loop returns `none` (fuel exhausted) for every
fuel on input s = [0x00], nch = 1. -/
theorem c9_valid_str_nul_diverges :
    (∀ fuel, validLoop [0x00] 1 fuel 0 = none) ∧ valid_str [0x00] 1 = none := by
  have h : ∀ fuel, validLoop [0x00] 1 fuel 0 = none := by
    intro fuel
    induction fuel with
    | zero => rfl
    | succ n ih =>
      have hstep : next_ptr [0x00] 0 = (.ok 0, 0) := by decide
      simp [validLoop, hstep, replaceVal, REPLACEMENT_CHARACTER, ih]
  exact ⟨h, by simp [valid_str, h 2]⟩

/-- C10: at a NUL byte inside the range, the pointer-based decoder returns
U+0000 and does not move the cursor (it treats the byte as the string
terminator), while the iterator-based overload returns U+0000 and advances
by one. -/
theorem c10_nul_byte (s : List Nat) (pos : Nat) (h1 : pos < s.length)
    (h2 : byteAt s pos = 0) :
    next_ptr s pos = (.ok 0, pos) ∧ next_iter s pos = (.ok 0, pos + 1) := by
  constructor
  · simp [next_ptr, h2]
  · simp [next_iter, h1, h2]

/-- C10 witness: the two decoders at the NUL byte of [0x00]. -/
theorem c10_nul_byte_witness :
    (0 : Nat) < [(0 : Nat)].length ∧ byteAt [0] 0 = 0 ∧
    next_ptr [0] 0 = (.ok 0, 0) ∧ next_iter [0] 0 = (.ok 0, 0 + 1) := by
  have h := c10_nul_byte [0] 0 (by decide) (by decide)
  exact ⟨by decide, by decide, h.1, h.2⟩

theorem fffd_bytes :
    0xE0 ||| (REPLACEMENT_CHARACTER >>> 12) = 0xEF ∧
    0x80 ||| (REPLACEMENT_CHARACTER >>> 6 &&& 0x3f) = 0xBF ∧
    0x80 ||| (REPLACEMENT_CHARACTER &&& 0x3f) = 0xBD := by
  decide

/-- C6: for every code point outside the valid domain (surrogate or above
0x10FFFF) and every buffer, `encode` under Replace appends exactly the
3-byte encoding EF BF BD of U+FFFD, and under Throw signals
`invalid_char32` (InvalidCodePoint) with the buffer unchanged — in the
embedding, `Res.err` carries no bytes, the C++ throw happening before any
`push_back`.  No partial output arises in either mode. -/
theorem c6_encode_invalid (c : Nat) (s : List Nat)
    (h : (0xD800 ≤ c ∧ c ≤ 0xDFFF) ∨ 0x10FFFF < c) :
    encode .replace c s = .ok (s ++ [0xEF, 0xBF, 0xBD]) ∧
    encode .except c s = .err .invalid_char32 := by
  rcases h with hs | hg
  · have hn1 : ¬ c ≤ 0x7f := by omega
    have hn2 : ¬ c ≤ 0x7ff := by omega
    have hy : c ≤ 0xffff := by omega
    constructor <;>
      simp [encode, throw_or_replace, hn1, hn2, hy, hs, fffd_bytes.1,
        fffd_bytes.2.1, fffd_bytes.2.2]
  · have hn1 : ¬ c ≤ 0x7f := by omega
    have hn2 : ¬ c ≤ 0x7ff := by omega
    have hn3 : ¬ c ≤ 0xffff := by omega
    have hn4 : ¬ c ≤ 0x10ffff := by omega
    constructor <;> simp [encode, hn1, hn2, hn3, hn4]

/-- C6 witness: the encoder on the surrogate 0xD800 and an empty buffer. -/
theorem c6_encode_invalid_witness :
    ((0xD800 ≤ 0xD800 ∧ (0xD800 : Nat) ≤ 0xDFFF) ∨ 0x10FFFF < (0xD800 : Nat)) ∧
    encode .replace 0xD800 [] = .ok ([] ++ [0xEF, 0xBF, 0xBD]) ∧
    encode .except 0xD800 [] = .err .invalid_char32 := by
  have h := c6_encode_invalid 0xD800 [] (by omega)
  exact ⟨by omega, h.1, h.2⟩

theorem prevTail_restores (pos ch p cont rune : Nat) (e : Cause) (q : Nat)
    (h : prevTail pos ch p cont rune = (.err e, q)) : q = pos := by
  unfold prevTail prevChecks at h
  split_ifs at h <;> simp_all

/-- C7: whenever either `prev` overload fails (an `err` result: 0xFFFD under
Replace, a thrown `invalid_utf8` under Throw), the cursor after the call
equals its pre-call value: every failure path executes `ptr = in_ptr` before
resolving the error policy. -/
theorem c7_prev_restores_on_failure (s : List Nat) (pos q : Nat) (e : Cause)
    (s2 : List Nat) (pos2 q2 : Nat) (e2 : Cause)
    (h1 : prev_ptr s pos = some (.err e, q))
    (h2 : prev_iter s2 pos2 = some (.err e2, q2)) :
    q = pos ∧ q2 = pos2 := by
  constructor
  · unfold prev_ptr at h1
    cases hL : prevLoop s pos 0 0 with
    | none => rw [hL] at h1; simp at h1
    | some t =>
      obtain ⟨ch, p, cont, rune⟩ := t
      rw [hL] at h1
      simp only [Option.some.injEq] at h1
      exact prevTail_restores pos ch p cont rune e q h1
  · unfold prev_iter at h2
    cases hL : prevLoopI s2 pos2 0 0 with
    | none => rw [hL] at h2; simp at h2
    | some t =>
      obtain ⟨ch, p, cont, rune⟩ := t
      rw [hL] at h2
      simp only [Option.some.injEq] at h2
      exact prevTail_restores pos2 ch p cont rune e2 q2 h2

/-- C7 witness: both `prev` overloads failing on [41 80] (a continuation
byte preceded by an ASCII byte) with the cursor restored to 2. -/
theorem c7_prev_restores_witness :
    prev_ptr [0x41, 0x80] 2 = some (.err .invalid_utf8, 2) ∧
    prev_iter [0x41, 0x80] 2 = some (.err .invalid_utf8, 2) ∧
    (2 : Nat) = 2 ∧ (2 : Nat) = 2 := by
  have h := c7_prev_restores_on_failure [0x41, 0x80] 2 2 .invalid_utf8
    [0x41, 0x80] 2 2 .invalid_utf8 (by decide) (by decide)
  exact ⟨by decide, by decide, h.1, h.2⟩

/-- C2 counterexample: for the boundary value c = 0x00 the cited
pointer-based decoder does not advance the cursor past the 1-byte encoding:
it returns code point 0 with the cursor still at 0, because it treats the
NUL byte as the string terminator, so decode_one(encode(0), 0) ≠ (0,
len(encode(0))). -/
theorem c2_roundtrip_cex :
    encBytes 0 = [0] ∧ next_ptr (encBytes 0) 0 = (.ok 0, 0) ∧
    ¬ next_ptr (encBytes 0) 0 = (.ok 0, (encBytes 0).length) := by
  decide

/-- C2 (amended): for every code point c in the valid domain, the
iterator-based decoder decodes encode(c) from position 0 back to c and
advances the cursor by exactly len(encode(c)); the pointer-based decoder
does the same for every such c except 0x00, where it returns code point 0
but leaves the cursor at 0. -/
theorem c2_roundtrip (c : Nat) (h1 : c ≤ 0x10FFFF)
    (h2 : ¬ (0xD800 ≤ c ∧ c ≤ 0xDFFF)) :
    next_iter (encBytes c) 0 = (.ok c, (encBytes c).length) ∧
    (c ≠ 0 → next_ptr (encBytes c) 0 = (.ok c, (encBytes c).length)) ∧
    next_ptr (encBytes 0) 0 = (.ok 0, 0) := by
  by_cases hA : c ≤ 0x7f
  · rw [encBytes_one c hA]
    exact ⟨by simpa using next_iter_ascii c hA,
      fun h0 => by simpa using next_ptr_ascii c hA h0, by decide⟩
  · by_cases hB : c ≤ 0x7ff
    · rw [encBytes_two c (by omega) hB]
      exact ⟨by simpa using next_iter_two c (by omega) hB,
        fun _ => by simpa using next_ptr_two c (by omega) hB, by decide⟩
    · by_cases hC : c ≤ 0xffff
      · rw [encBytes_three c (by omega) hC h2]
        exact ⟨by simpa using next_iter_three c (by omega) hC h2,
          fun _ => by simpa using next_ptr_three c (by omega) hC h2, by decide⟩
      · rw [encBytes_four c (by omega) h1]
        exact ⟨by simpa using next_iter_four c (by omega) h1,
          fun _ => by simpa using next_ptr_four c (by omega) h1, by decide⟩

/-- C2 witness: the round trip at the boundary value 0x10FFFF. -/
theorem c2_roundtrip_witness :
    (0x10FFFF : Nat) ≤ 0x10FFFF ∧
    ¬ (0xD800 ≤ (0x10FFFF : Nat) ∧ (0x10FFFF : Nat) ≤ 0xDFFF) ∧
    (next_iter (encBytes 0x10FFFF) 0 = (.ok 0x10FFFF, (encBytes 0x10FFFF).length) ∧
      ((0x10FFFF : Nat) ≠ 0 →
        next_ptr (encBytes 0x10FFFF) 0 = (.ok 0x10FFFF, (encBytes 0x10FFFF).length)) ∧
      next_ptr (encBytes 0) 0 = (.ok 0, 0)) :=
  ⟨by omega, by omega, c2_roundtrip 0x10FFFF (by omega) (by omega)⟩

theorem skipHigh_ge (s : List Nat) (p : Nat) : p ≤ skipHigh s p := by
  induction p using skipHigh.induct s with
  | case1 p h ih => rw [skipHigh, dif_pos h]; omega
  | case2 p h => rw [skipHigh, dif_neg h]

theorem skipHigh_between (s : List Nat) (p : Nat) :
    ∀ k, p ≤ k → k < skipHigh s p →
      byteAt s k ≠ 0 ∧ byteAt s k &&& 0x80 = 0x80 := by
  induction p using skipHigh.induct s with
  | case1 p h ih =>
    intro k hk1 hk2
    rw [skipHigh, dif_pos h] at hk2
    by_cases hkp : k = p
    · subst hkp; exact h
    · exact ih k (by omega) hk2
  | case2 p h =>
    intro k hk1 hk2
    rw [skipHigh, dif_neg h] at hk2
    omega

theorem skipHigh_exit (s : List Nat) (p : Nat) :
    byteAt s (skipHigh s p) = 0 ∨ byteAt s (skipHigh s p) &&& 0x80 ≠ 0x80 := by
  induction p using skipHigh.induct s with
  | case1 p h ih => rw [skipHigh, dif_pos h]; exact ih
  | case2 p h =>
    rw [skipHigh, dif_neg h]
    by_cases h0 : byteAt s p = 0
    · exact .inl h0
    · exact .inr fun hb => h ⟨h0, hb⟩

/-- C5 counterexample: called at the continuation byte 0x80 of
[80 C2 41], `next` does not stop at the first following byte that fails the
10xxxxxx pattern — the candidate lead byte 0xC2 at index 1 — but skips it
too, leaving the cursor at 2. -/
theorem c5_resync_cex :
    next_ptr [0x80, 0xC2, 0x41] 0 = (.err .invalid_utf8, 2) ∧
    next_iter [0x80, 0xC2, 0x41] 0 = (.err .invalid_utf8, 2) ∧
    (0xC2 : Nat) &&& 0xC0 ≠ 0x80 := by
  have hskip : skipHigh [0x80, 0xC2, 0x41] 1 = 2 := by
    rw [skipHigh, dif_pos (by decide), skipHigh, dif_neg (by decide)]
  refine ⟨?_, ?_, by decide⟩
  · calc next_ptr [0x80, 0xC2, 0x41] 0 =
        (.err .invalid_utf8, skipHigh [0x80, 0xC2, 0x41] 1) := rfl
      _ = (.err .invalid_utf8, 2) := by rw [hskip]
  · calc next_iter [0x80, 0xC2, 0x41] 0 =
        (.err .invalid_utf8, skipHigh [0x80, 0xC2, 0x41] 1) := rfl
      _ = (.err .invalid_utf8, 2) := by rw [hskip]

/-- C5 (amended): whenever `next` is called at a continuation byte
10xxxxxx, it fails per the error policy with the cursor advanced past this
byte and past every subsequent contiguous byte whose HIGH BIT is set
(continuation bytes 10xxxxxx and lead bytes 11xxxxxx alike), stopping at
the first following byte with the high bit clear, at a NUL byte, or at the
sequence end — not, as claimed, at the first byte failing the 10xxxxxx
pattern. -/
theorem c5_resync (s : List Nat) (pos : Nat)
    (h : byteAt s pos &&& 0xC0 = 0x80) :
    next_ptr s pos = (.err .invalid_utf8, skipHigh s (pos + 1)) ∧
    next_iter s pos = (.err .invalid_utf8, skipHigh s (pos + 1)) ∧
    pos + 1 ≤ skipHigh s (pos + 1) ∧
    (∀ k, pos + 1 ≤ k → k < skipHigh s (pos + 1) →
        byteAt s k ≠ 0 ∧ byteAt s k &&& 0x80 = 0x80) ∧
    (byteAt s (skipHigh s (pos + 1)) = 0 ∨
        byteAt s (skipHigh s (pos + 1)) &&& 0x80 ≠ 0x80) := by
  have h80 : byteAt s pos &&& 0x80 = 0x80 := by
    have hx : byteAt s pos &&& 0x80 = byteAt s pos &&& (0xC0 &&& 0x80) :=
      congrArg (fun m => byteAt s pos &&& m) (by decide)
    rw [hx, ← Nat.land_assoc, h]
    decide
  have hne : byteAt s pos ≠ 0 := by
    intro h0
    rw [h0] at h
    simp at h
  have hlt : pos < s.length := byteAt_ne_zero_lt s pos hne
  refine ⟨?_, ?_, skipHigh_ge s (pos + 1), skipHigh_between s (pos + 1),
    skipHigh_exit s (pos + 1)⟩
  · simp [next_ptr, h, h80]
  · simp [next_iter, hlt, h, h80]

/-- C5 witness: the resynchronisation behaviour at the continuation byte of
[80 C2 41]. -/
theorem c5_resync_witness :
    byteAt [0x80, 0xC2, 0x41] 0 &&& 0xC0 = 0x80 ∧
    next_ptr [0x80, 0xC2, 0x41] 0 =
      (.err .invalid_utf8, skipHigh [0x80, 0xC2, 0x41] (0 + 1)) :=
  ⟨by decide, (c5_resync [0x80, 0xC2, 0x41] 0 (by decide)).1⟩

end Utf8
